import Mathlib

/-!
Verification of the `cosign` verify command (`DoVerify` and its helpers)
from this repository, as a shallow embedding in Lean 4.

External collaborators (registry client construction, identity-option
parsing, Rekor / Fulcio / CT-log services, file loading, PEM and base64
decoding, the per-image signature verification of the cosign library)
are modelled as an oracle environment `Env`: each collaborator call is a
field of `Env` returning `Except String α`.  The embedding of `DoVerify`
returns, next to its `Except` result, the list of collaborator calls it
made (`Effect`s) in order, so that claims of the form "this path never
contacts that collaborator" are statable as trace properties.
-/

/-- Abstract X.509 certificate (only identity matters for the control flow). -/
abbrev Cert := Nat

/-- Raw byte strings. -/
abbrev Bytes := List Nat

/-- A resolved signature verifier (abstract). -/
abbrev Verifier := Nat

/-- A parsed identity predicate entry (abstract). -/
abbrev Identity := Nat

/-- A parsed image reference (abstract; carries the string it came from). -/
abbrev Ref := String

/-- The numeric value of `crypto.SHA256` in Go's `crypto.Hash` enumeration. -/
def SHA256 : Nat := 5

/-- Mirrors `VerifyCommand` (the fields `DoVerify` reads).
`HashAlgorithm` is Go's `crypto.Hash`, an integer whose zero value means
"unset".  `Annotations` is the flattened annotations map. -/
structure VerifyCommand where
  CheckClaims : Bool := false
  KeyRef : String := ""
  CertRef : String := ""
  CertGithubWorkflowTrigger : String := ""
  CertGithubWorkflowSha : String := ""
  CertGithubWorkflowName : String := ""
  CertGithubWorkflowRepository : String := ""
  CertGithubWorkflowRef : String := ""
  CertChain : String := ""
  IgnoreSCT : Bool := false
  SCTRef : String := ""
  Sk : Bool := false
  Slot : String := ""
  RekorURL : String := ""
  Attachment : String := ""
  Annotations : List (String × String) := []
  SignatureRef : String := ""
  PayloadRef : String := ""
  HashAlgorithm : Nat := 0
  LocalImage : Bool := false
  Offline : Bool := false
  TSACertChainPath : String := ""
  IgnoreTlog : Bool := false
deriving Repr, DecidableEq

/-- Mirrors `cosign.CheckOpts` (the fields `DoVerify` writes).
Certificate pools are `Option (List Cert)`: `none` is Go's nil pool,
`some l` a pool holding the certificates of `l` in insertion order. -/
structure CheckOpts where
  annotations : List (String × String) := []
  certGithubWorkflowTrigger : String := ""
  certGithubWorkflowSha : String := ""
  certGithubWorkflowName : String := ""
  certGithubWorkflowRepository : String := ""
  certGithubWorkflowRef : String := ""
  ignoreSCT : Bool := false
  signatureRef : String := ""
  payloadRef : String := ""
  identities : List Identity := []
  offline : Bool := false
  ignoreTlog : Bool := false
  claimVerifier : Bool := false
  rekorClient : Option Unit := none
  rekorPubKeys : Option Nat := none
  rootCerts : Option (List Cert) := none
  intermediateCerts : Option (List Cert) := none
  ctLogPubKeys : Option Nat := none
  sigVerifier : Option Verifier := none
  sct : Option Bytes := none
deriving Repr, DecidableEq

/-- One collaborator call made by `DoVerify`, recorded in order. -/
inductive Effect where
  | identitiesResolve
  | clientOpts
  | rekorNewClient (url : String)
  | getRekorPubs
  | loadCertChain (path : String)
  | fulcioGetRoots
  | fulcioGetIntermediates
  | getCTLogPubs
  | publicKeyFromKeyRef (keyRef : String) (hashAlgo : Nat)
  | pivGetKey (slot : String)
  | loadCert (path : String)
  | validateCert
  | validateCertWithChain
  | readSCTFile (path : String)
  | verifyLocalImage (img : String)
  | parseReference (img : String)
  | getAttachedImageRef (img : String) (attachment : String)
  | verifyImageSignatures (img : String)
deriving Repr, DecidableEq

/-- Mirrors the error values `DoVerify` can return (each wrapped
collaborator error keeps the collaborator's message). -/
inductive VerifyError where
  | errHelp
  | identitiesErr (s : String)
  | clientOptsErr (s : String)
  | tsaNotSupported
  | rekorClientErr (s : String)
  | rekorPubsErr (s : String)
  | certChainLoadErr (s : String)
  | panicEmptyChain
  | fulcioRootsErr (s : String)
  | fulcioIntermediatesErr (s : String)
  | ctLogPubsErr (s : String)
  | loadPublicKeyErr (s : String)
  | pivTokenErr (s : String)
  | pivVerifierErr (s : String)
  | certLoadErr (s : String)
  | validateCertErr (s : String)
  | sctReadErr (s : String)
  | parseRefErr (img s : String)
  | attachErr (img s : String)
  | verifyErr (img s : String)
deriving Repr, DecidableEq

/-- The oracle environment: one field per external collaborator. -/
structure Env where
  identities : Except String (List Identity)
  clientOpts : Except String Unit
  rekorNewClient : String → Except String Unit
  getRekorPubs : Except String Nat
  loadCertChain : String → Except String (List Cert)
  fulcioGetRoots : Except String (List Cert)
  fulcioGetIntermediates : Except String (List Cert)
  getCTLogPubs : Except String Nat
  publicKeyFromKeyRef : String → Nat → Except String Verifier
  pivGetKey : String → Except String Unit
  pivVerifier : Except String Verifier
  loadCert : String → Except String Cert
  validateCert : Cert → CheckOpts → Except String Verifier
  validateCertWithChain : Cert → List Cert → CheckOpts → Except String Verifier
  readSCTFile : String → Except String Bytes
  parseReference : String → Except String Ref
  getAttachedImageRef : Ref → String → Except String Ref
  verifyLocalImage : String → CheckOpts → Except String Unit
  verifyImageSignatures : Ref → CheckOpts → Except String Unit

deriving instance DecidableEq for Except

/-- `True` iff an `Except` is a success. -/
def exceptOk {ε α : Type} : Except ε α → Prop
  | .ok _ => True
  | .error _ => False

instance {ε α : Type} (e : Except ε α) : Decidable (exceptOk e) := by
  cases e <;> simp [exceptOk] <;> infer_instance

/-- Sequencing for trace-producing fallible steps: run `step`; on success
feed its value to `k` and concatenate the traces, on failure stop. -/
def andThen {α β : Type} (step : List Effect × Except VerifyError α)
    (k : α → List Effect × Except VerifyError β) :
    List Effect × Except VerifyError β :=
  match step with
  | (t, .error e) => (t, .error e)
  | (t, .ok a) => let r := k a; (t ++ r.1, r.2)

/-- Mirrors `keylessVerification` (src/unnamed/part_000:317-325). -/
def keylessVerification (keyRef : String) (sk : Bool) : Bool :=
  if keyRef ≠ "" then false
  else if sk then false
  else true

/-- Mirrors lines 90-93: default the hash algorithm to SHA-256 when it is
the zero value, keep it otherwise. -/
def defaultHashAlgorithm (h : Nat) : Nat :=
  if h = 0 then SHA256 else h

/-- Mirrors lines 95-101: the identity predicates are resolved from the
configured certificate-identity options only when `KeyRef` is empty;
otherwise the `identities` slice stays nil (here `[]`). -/
def resolveIdentities (env : Env) (c : VerifyCommand) :
    List Effect × Except VerifyError (List Identity) :=
  if c.KeyRef = "" then
    match env.identities with
    | .error e => ([.identitiesResolve], .error (.identitiesErr e))
    | .ok ids => ([.identitiesResolve], .ok ids)
  else ([], .ok [])

/-- Mirrors lines 108-125: construction of the `CheckOpts` record. -/
def mkCheckOpts (c : VerifyCommand) (identities : List Identity) : CheckOpts :=
  { annotations := c.Annotations
    certGithubWorkflowTrigger := c.CertGithubWorkflowTrigger
    certGithubWorkflowSha := c.CertGithubWorkflowSha
    certGithubWorkflowName := c.CertGithubWorkflowName
    certGithubWorkflowRepository := c.CertGithubWorkflowRepository
    certGithubWorkflowRef := c.CertGithubWorkflowRef
    ignoreSCT := c.IgnoreSCT
    signatureRef := c.SignatureRef
    payloadRef := c.PayloadRef
    identities := identities
    offline := c.Offline
    ignoreTlog := c.IgnoreTlog
    claimVerifier := c.CheckClaims }

/-- Mirrors lines 131-145: unless `IgnoreTlog`, optionally build a Rekor
client for a `RekorURL` override, then always fetch the Rekor public
keys; each failure is returned as a wrapped fatal error. -/
def phaseTlog (env : Env) (c : VerifyCommand) (co : CheckOpts) :
    List Effect × Except VerifyError CheckOpts :=
  if ¬c.IgnoreTlog then
    andThen
      (if c.RekorURL ≠ "" then
        match env.rekorNewClient c.RekorURL with
        | .error e => ([.rekorNewClient c.RekorURL], .error (.rekorClientErr e))
        | .ok _ => ([.rekorNewClient c.RekorURL], .ok { co with rekorClient := some () })
      else ([], .ok co))
      (fun co' =>
        match env.getRekorPubs with
        | .error e => ([.getRekorPubs], .error (.rekorPubsErr e))
        | .ok keys => ([.getRekorPubs], .ok { co' with rekorPubKeys := some keys }))
  else ([], .ok co)

/-- Mirrors lines 146-172: when neither a static key nor a hardware token
was supplied, establish the root of trust: from the supplied chain file
(last certificate alone in the root pool, all preceding ones in the
intermediate pool) or, absent a chain, from the Fulcio service.
An empty decoded chain makes the Go code index `chain[len(chain)-1]`
out of range; that panic is modelled as `panicEmptyChain`. -/
def phaseKeyless (env : Env) (c : VerifyCommand) (co : CheckOpts) :
    List Effect × Except VerifyError CheckOpts :=
  if keylessVerification c.KeyRef c.Sk then
    if c.CertChain ≠ "" then
      match env.loadCertChain c.CertChain with
      | .error e => ([.loadCertChain c.CertChain], .error (.certChainLoadErr e))
      | .ok chain =>
        match chain.getLast? with
        | none => ([.loadCertChain c.CertChain], .error .panicEmptyChain)
        | some root =>
          ([.loadCertChain c.CertChain],
            .ok { co with
                  rootCerts := some [root]
                  intermediateCerts :=
                    if 1 < chain.length then some chain.dropLast else none })
    else
      andThen
        (match env.fulcioGetRoots with
        | .error e => ([.fulcioGetRoots], .error (.fulcioRootsErr e))
        | .ok roots => ([.fulcioGetRoots], .ok { co with rootCerts := some roots }))
        (fun co' =>
          match env.fulcioGetIntermediates with
          | .error e => ([.fulcioGetIntermediates], .error (.fulcioIntermediatesErr e))
          | .ok ints =>
            ([.fulcioGetIntermediates], .ok { co' with intermediateCerts := some ints }))
  else ([], .ok co)

/-- Mirrors lines 176-181: unless `IgnoreSCT`, fetch the CT-log public
keys; failure is a wrapped fatal error. -/
def phaseCTLog (env : Env) (c : VerifyCommand) (co : CheckOpts) :
    List Effect × Except VerifyError CheckOpts :=
  if ¬c.IgnoreSCT then
    match env.getCTLogPubs with
    | .error e => ([.getCTLogPubs], .error (.ctLogPubsErr e))
    | .ok keys => ([.getCTLogPubs], .ok { co with ctLogPubKeys := some keys })
  else ([], .ok co)

/-- The four mutually exclusive key sources of the `switch` at
lines 183-242, as a tagged variant. -/
inductive KeySource where
  | staticKey
  | hardwareToken
  | cert
  | keyless
deriving Repr, DecidableEq

/-- The dispatch of the `switch` at lines 185-242: first match wins, in
the order static key, hardware token, explicit certificate, keyless. -/
def resolveKeySource (keyRef : String) (sk : Bool) (certRef : String) : KeySource :=
  if keyRef ≠ "" then .staticKey
  else if sk then .hardwareToken
  else if certRef ≠ "" then .cert
  else .keyless

/-- Mirrors the body of the `switch` at lines 183-242: resolve the key
source, produce the optional verifier (`none` in the keyless branch, as
`pubKey` stays nil), and apply the branch's side effects on the check
options (the explicit-certificate branch re-resolves the Fulcio pools
when no chain was supplied, and may attach a detached SCT). -/
def phaseKeySwitch (env : Env) (c : VerifyCommand) (hashAlgo : Nat)
    (co : CheckOpts) :
    List Effect × Except VerifyError (CheckOpts × Option Verifier) :=
  match resolveKeySource c.KeyRef c.Sk c.CertRef with
  | .staticKey =>
    match env.publicKeyFromKeyRef c.KeyRef hashAlgo with
    | .error e => ([.publicKeyFromKeyRef c.KeyRef hashAlgo], .error (.loadPublicKeyErr e))
    | .ok v => ([.publicKeyFromKeyRef c.KeyRef hashAlgo], .ok (co, some v))
  | .hardwareToken =>
    match env.pivGetKey c.Slot with
    | .error e => ([.pivGetKey c.Slot], .error (.pivTokenErr e))
    | .ok _ =>
      match env.pivVerifier with
      | .error e => ([.pivGetKey c.Slot], .error (.pivVerifierErr e))
      | .ok v => ([.pivGetKey c.Slot], .ok (co, some v))
  | .cert =>
    andThen
      (match env.loadCert c.CertRef with
      | .error e => ([.loadCert c.CertRef], .error (.certLoadErr e))
      | .ok cert => ([.loadCert c.CertRef], .ok cert))
      (fun cert =>
        andThen
          (if c.CertChain = "" then
            andThen
              (match env.fulcioGetRoots with
              | .error e => ([.fulcioGetRoots], .error (.fulcioRootsErr e))
              | .ok roots => ([.fulcioGetRoots], .ok { co with rootCerts := some roots }))
              (fun co1 =>
                andThen
                  (match env.fulcioGetIntermediates with
                  | .error e =>
                    ([.fulcioGetIntermediates], .error (.fulcioIntermediatesErr e))
                  | .ok ints =>
                    ([.fulcioGetIntermediates],
                      .ok { co1 with intermediateCerts := some ints }))
                  (fun co2 =>
                    match env.validateCert cert co2 with
                    | .error e => ([.validateCert], .error (.validateCertErr e))
                    | .ok v => ([.validateCert], .ok (co2, v))))
          else
            andThen
              (match env.loadCertChain c.CertChain with
              | .error e => ([.loadCertChain c.CertChain], .error (.certChainLoadErr e))
              | .ok chain => ([.loadCertChain c.CertChain], .ok chain))
              (fun chain =>
                match env.validateCertWithChain cert chain co with
                | .error e => ([.validateCertWithChain], .error (.validateCertErr e))
                | .ok v => ([.validateCertWithChain], .ok (co, v))))
          (fun cov =>
            if c.SCTRef ≠ "" then
              match env.readSCTFile c.SCTRef with
              | .error e => ([.readSCTFile c.SCTRef], .error (.sctReadErr e))
              | .ok sct =>
                ([.readSCTFile c.SCTRef],
                  .ok ({ cov.1 with sct := some sct }, some cov.2))
            else ([], .ok (cov.1, some cov.2))))
  | .keyless => ([], .ok (co, none))

/-- One iteration of the loop at lines 253-274: verify one image, either
locally, or by parsing the reference, resolving the attachment, and
verifying the signatures on the resolved reference. -/
def verifyOne (env : Env) (c : VerifyCommand) (co : CheckOpts) (img : String) :
    List Effect × Except VerifyError Unit :=
  if c.LocalImage then
    match env.verifyLocalImage img co with
    | .error e => ([.verifyLocalImage img], .error (.verifyErr img e))
    | .ok _ => ([.verifyLocalImage img], .ok ())
  else
    match env.parseReference img with
    | .error e => ([.parseReference img], .error (.parseRefErr img e))
    | .ok ref =>
      match env.getAttachedImageRef ref c.Attachment with
      | .error e =>
        ([.parseReference img, .getAttachedImageRef img c.Attachment],
          .error (.attachErr img e))
      | .ok ref2 =>
        match env.verifyImageSignatures ref2 co with
        | .error e =>
          ([.parseReference img, .getAttachedImageRef img c.Attachment,
            .verifyImageSignatures img], .error (.verifyErr img e))
        | .ok _ =>
          ([.parseReference img, .getAttachedImageRef img c.Attachment,
            .verifyImageSignatures img], .ok ())

/-- The loop at lines 253-274: images in order, returning the first
error immediately without touching the remaining images. -/
def verifyImages (env : Env) (c : VerifyCommand) (co : CheckOpts) :
    List String → List Effect × Except VerifyError Unit
  | [] => ([], .ok ())
  | img :: rest =>
    andThen (verifyOne env c co img) (fun _ => verifyImages env c co rest)

/-- Lines 131-243 of `DoVerify`: the transparency, root-of-trust and
CT-log phases followed by the key-source switch (which gets the
defaulted hash algorithm of lines 90-93), ending with the `co.SigVerifier
= pubKey` assignment of line 243. -/
def trustPhases (env : Env) (c : VerifyCommand) (co : CheckOpts) :
    List Effect × Except VerifyError CheckOpts :=
  andThen (phaseTlog env c co) (fun co1 =>
    andThen (phaseKeyless env c co1) (fun co2 =>
      andThen (phaseCTLog env c co2) (fun co3 =>
        andThen
          (phaseKeySwitch env c (defaultHashAlgorithm c.HashAlgorithm) co3)
          (fun cov => ([], .ok { cov.1 with sigVerifier := cov.2 })))))

/-- Lines 90-243 of `DoVerify`: everything between the input checks and
the image loop — hash defaulting, identity-predicate resolution, client
options, `CheckOpts` construction, the TSA rejection, and the trust
phases; it produces the check options record the image loop runs with. -/
def trustSetup (env : Env) (c : VerifyCommand) :
    List Effect × Except VerifyError CheckOpts :=
  andThen (resolveIdentities env c) (fun ids =>
    andThen
      (match env.clientOpts with
      | .error e => ([.clientOpts], .error (.clientOptsErr e))
      | .ok _ => ([.clientOpts], .ok ()))
      (fun _ =>
        if c.TSACertChainPath ≠ "" then ([], .error .tsaNotSupported)
        else trustPhases env c (mkCheckOpts c ids)))

/-- Mirrors `DoVerify` (lines 78-277).  On success it returns the final
check options (Go returns nil; the options record is the observable
state the claims speak about), and in every case the ordered list of
collaborator calls made. -/
def DoVerify (env : Env) (c : VerifyCommand) (images : List String) :
    List Effect × Except VerifyError CheckOpts :=
  if images.length = 0 then ([], .error .errHelp)
  else if c.Attachment = "sbom" ∨ c.Attachment = "" then
    andThen (trustSetup env c) (fun co =>
      andThen (verifyImages env c co images) (fun _ => ([], .ok co)))
  else ([], .error .errHelp)

/-- Mirrors `loadCertFromPEM` (lines 287-303).  The Go standard library
base64 decoder and the PEM unmarshaller are collaborator parameters:
`b64decode` returns `none` exactly when Go's `DecodeString` errors. -/
def loadCertFromPEM (b64decode : Bytes → Option Bytes)
    (unmarshal : Bytes → Except String (List Cert)) (pems : Bytes) :
    Except String Cert :=
  let out :=
    match b64decode pems with
    | some d => d
    | none => pems
  match unmarshal out with
  | .error e => .error e
  | .ok certs =>
    match certs with
    | [] => .error "no certs found in pem file"
    | cert :: _ => .ok cert

/-! ### Helper lemmas about the sequencing combinator and the phases -/

theorem andThen_error {α β : Type} {s : List Effect × Except VerifyError α}
    {k : α → List Effect × Except VerifyError β} {err : VerifyError}
    (h : s.2 = .error err) : andThen s k = (s.1, .error err) := by
  obtain ⟨t, r⟩ := s
  cases r with
  | error e => simp at h; simp [andThen, h]
  | ok a => simp at h

theorem andThen_ok {α β : Type} {s : List Effect × Except VerifyError α}
    {k : α → List Effect × Except VerifyError β} {a : α}
    (h : s.2 = .ok a) : andThen s k = (s.1 ++ (k a).1, (k a).2) := by
  obtain ⟨t, r⟩ := s
  cases r with
  | error e => simp at h
  | ok a' => simp at h; simp [andThen, h]

theorem mem_andThen {α β : Type} {s : List Effect × Except VerifyError α}
    {k : α → List Effect × Except VerifyError β} {e : Effect}
    (h : e ∈ (andThen s k).1) : e ∈ s.1 ∨ ∃ a, e ∈ (k a).1 := by
  obtain ⟨t, r⟩ := s
  cases r with
  | error err => simp [andThen] at h; exact .inl h
  | ok a =>
    simp [andThen] at h
    rcases h with h | h
    · exact .inl h
    · exact .inr ⟨a, h⟩

theorem resolveIdentities_trace (env : Env) (c : VerifyCommand) {e : Effect}
    (h : e ∈ (resolveIdentities env c).1) : e = .identitiesResolve := by
  unfold resolveIdentities at h
  split at h
  · cases henv : env.identities <;> rw [henv] at h <;> simpa using h
  · simp at h

theorem resolveIdentities_of_keyRef (env : Env) (c : VerifyCommand)
    (h : c.KeyRef ≠ "") : resolveIdentities env c = ([], .ok []) := by
  unfold resolveIdentities
  simp [h]

theorem phaseTlog_trace (env : Env) (c : VerifyCommand) (co : CheckOpts) {e : Effect}
    (h : e ∈ (phaseTlog env c co).1) :
    e = .rekorNewClient c.RekorURL ∨ e = .getRekorPubs := by
  unfold phaseTlog at h
  split at h
  · rcases mem_andThen h with h' | ⟨a, h'⟩
    · split at h'
      · cases henv : env.rekorNewClient c.RekorURL <;> rw [henv] at h' <;>
          simp at h' <;> exact .inl h'
      · simp at h'
    · cases henv : env.getRekorPubs <;> rw [henv] at h' <;> simp at h' <;>
        exact .inr h'
  · simp at h

theorem phaseKeyless_skip (env : Env) (c : VerifyCommand) (co : CheckOpts)
    (h : keylessVerification c.KeyRef c.Sk = false) :
    phaseKeyless env c co = ([], .ok co) := by
  unfold phaseKeyless
  simp [h]

theorem phaseKeyless_trace (env : Env) (c : VerifyCommand) (co : CheckOpts) {e : Effect}
    (h : e ∈ (phaseKeyless env c co).1) :
    e = .loadCertChain c.CertChain ∨ e = .fulcioGetRoots ∨
      e = .fulcioGetIntermediates := by
  unfold phaseKeyless at h
  split at h
  · split at h
    · cases henv : env.loadCertChain c.CertChain <;> rw [henv] at h
      · simp at h; exact .inl h
      · rename_i chain
        rcases hl : chain.getLast? with _ | root <;> simp [hl] at h <;> exact .inl h
    · rcases mem_andThen h with h' | ⟨a, h'⟩
      · cases henv : env.fulcioGetRoots <;> rw [henv] at h' <;> simp at h' <;>
          exact .inr (.inl h')
      · cases henv : env.fulcioGetIntermediates <;> rw [henv] at h' <;>
          simp at h' <;> exact .inr (.inr h')
  · simp at h

theorem phaseCTLog_skip (env : Env) (c : VerifyCommand) (co : CheckOpts)
    (h : c.IgnoreSCT = true) : phaseCTLog env c co = ([], .ok co) := by
  unfold phaseCTLog
  simp [h]

theorem phaseCTLog_trace (env : Env) (c : VerifyCommand) (co : CheckOpts) {e : Effect}
    (h : e ∈ (phaseCTLog env c co).1) : e = .getCTLogPubs := by
  unfold phaseCTLog at h
  split at h
  · cases henv : env.getCTLogPubs <;> rw [henv] at h <;> simpa using h
  · simp at h

theorem phaseTlog_skip (env : Env) (c : VerifyCommand) (co : CheckOpts)
    (h : c.IgnoreTlog = true) : phaseTlog env c co = ([], .ok co) := by
  unfold phaseTlog
  simp [h]

theorem andThen_ok_inv {α β : Type} {s : List Effect × Except VerifyError α}
    {k : α → List Effect × Except VerifyError β} {b : β}
    (h : (andThen s k).2 = .ok b) : ∃ a, s.2 = .ok a ∧ (k a).2 = .ok b := by
  obtain ⟨t, r⟩ := s
  cases r with
  | error err => simp [andThen] at h
  | ok a =>
    simp [andThen] at h
    exact ⟨a, rfl, h⟩

theorem resolveKeySource_static (keyRef : String) (sk : Bool) (certRef : String)
    (h : keyRef ≠ "") : resolveKeySource keyRef sk certRef = .staticKey := by
  unfold resolveKeySource
  simp [h]

theorem resolveKeySource_token (keyRef : String) (sk : Bool) (certRef : String)
    (h1 : keyRef = "") (h2 : sk = true) :
    resolveKeySource keyRef sk certRef = .hardwareToken := by
  unfold resolveKeySource
  simp [h1, h2]

theorem resolveKeySource_cert (keyRef : String) (sk : Bool) (certRef : String)
    (h1 : keyRef = "") (h2 : sk = false) (h3 : certRef ≠ "") :
    resolveKeySource keyRef sk certRef = .cert := by
  unfold resolveKeySource
  simp [h1, h2, h3]

theorem resolveKeySource_keyless (keyRef : String) (sk : Bool) (certRef : String)
    (h1 : keyRef = "") (h2 : sk = false) (h3 : certRef = "") :
    resolveKeySource keyRef sk certRef = .keyless := by
  unfold resolveKeySource
  simp [h1, h2, h3]

theorem phaseKeySwitch_trace_static (env : Env) (c : VerifyCommand) (ha : Nat)
    (co : CheckOpts) (h : c.KeyRef ≠ "") :
    (phaseKeySwitch env c ha co).1 = [.publicKeyFromKeyRef c.KeyRef ha] := by
  unfold phaseKeySwitch
  rw [resolveKeySource_static _ _ _ h]
  cases henv : env.publicKeyFromKeyRef c.KeyRef ha <;> simp

theorem phaseKeySwitch_trace_token (env : Env) (c : VerifyCommand) (ha : Nat)
    (co : CheckOpts) (h1 : c.KeyRef = "") (h2 : c.Sk = true) :
    (phaseKeySwitch env c ha co).1 = [.pivGetKey c.Slot] := by
  unfold phaseKeySwitch
  rw [resolveKeySource_token _ _ _ h1 h2]
  cases henv : env.pivGetKey c.Slot
  · simp
  · cases henv2 : env.pivVerifier <;> simp

theorem phaseKeySwitch_verifier (env : Env) (c : VerifyCommand) (ha : Nat)
    (co : CheckOpts) (cov : CheckOpts × Option Verifier)
    (h : (phaseKeySwitch env c ha co).2 = .ok cov) :
    (resolveKeySource c.KeyRef c.Sk c.CertRef = .keyless → cov.2 = none) ∧
      (resolveKeySource c.KeyRef c.Sk c.CertRef ≠ .keyless → ∃ v, cov.2 = some v) := by
  unfold phaseKeySwitch at h
  cases hks : resolveKeySource c.KeyRef c.Sk c.CertRef <;> rw [hks] at h
  · refine ⟨fun hcon => by simp at hcon, fun _ => ?_⟩
    cases henv : env.publicKeyFromKeyRef c.KeyRef ha <;> rw [henv] at h <;>
      simp at h
    exact ⟨_, by rw [← h]⟩
  · refine ⟨fun hcon => by simp at hcon, fun _ => ?_⟩
    cases henv : env.pivGetKey c.Slot <;> rw [henv] at h
    · simp at h
    · cases henv2 : env.pivVerifier <;> rw [henv2] at h <;> simp at h
      exact ⟨_, by rw [← h]⟩
  · refine ⟨fun hcon => by simp at hcon, fun _ => ?_⟩
    obtain ⟨cert, -, h2⟩ := andThen_ok_inv h
    obtain ⟨cov0, -, h3⟩ := andThen_ok_inv h2
    by_cases hsct : c.SCTRef ≠ ""
    · rw [if_pos hsct] at h3
      cases henv : env.readSCTFile c.SCTRef <;> rw [henv] at h3 <;> simp at h3
      exact ⟨cov0.2, by rw [← h3]⟩
    · rw [if_neg hsct] at h3
      simp at h3
      exact ⟨cov0.2, by rw [← h3]⟩
  · simp at h
    exact ⟨fun _ => by rw [← h], fun hcon => absurd rfl hcon⟩

theorem mem_andThen_left {α β : Type} {s : List Effect × Except VerifyError α}
    {k : α → List Effect × Except VerifyError β} {e : Effect}
    (h : e ∈ s.1) : e ∈ (andThen s k).1 := by
  obtain ⟨t, r⟩ := s
  cases r <;> simp [andThen] at h ⊢ <;> simp [h]

/-- The effects of the per-image loop (they never occur before it). -/
def isVerifyEffect : Effect → Bool
  | .verifyLocalImage _ => true
  | .parseReference _ => true
  | .getAttachedImageRef _ _ => true
  | .verifyImageSignatures _ => true
  | _ => false

theorem phaseKeySwitch_class (env : Env) (c : VerifyCommand) (ha : Nat)
    (co : CheckOpts) {e : Effect} (h : e ∈ (phaseKeySwitch env c ha co).1) :
    isVerifyEffect e = false ∧ e ≠ .identitiesResolve ∧ e ≠ .clientOpts ∧
      e ≠ .getRekorPubs ∧ e ≠ .getCTLogPubs ∧
      ∀ k a, e = .publicKeyFromKeyRef k a → k = c.KeyRef ∧ a = ha := by
  unfold phaseKeySwitch at h
  cases hks : resolveKeySource c.KeyRef c.Sk c.CertRef <;> rw [hks] at h
  · cases henv : env.publicKeyFromKeyRef c.KeyRef ha <;> rw [henv] at h <;>
      simp at h <;> subst h <;> simp [isVerifyEffect]
  · cases henv : env.pivGetKey c.Slot <;> rw [henv] at h
    · simp at h; subst h; simp [isVerifyEffect]
    · cases henv2 : env.pivVerifier <;> simp [henv2] at h <;> subst h <;>
        simp [isVerifyEffect]
  · rcases mem_andThen h with h1 | ⟨cert, h1⟩
    · cases henv : env.loadCert c.CertRef <;> rw [henv] at h1 <;> simp at h1 <;>
        subst h1 <;> simp [isVerifyEffect]
    · rcases mem_andThen h1 with h2 | ⟨cov0, h2⟩
      · split at h2
        · rcases mem_andThen h2 with h3 | ⟨co1, h3⟩
          · cases henv : env.fulcioGetRoots <;> rw [henv] at h3 <;> simp at h3 <;>
              subst h3 <;> simp [isVerifyEffect]
          · rcases mem_andThen h3 with h4 | ⟨co2, h4⟩
            · cases henv : env.fulcioGetIntermediates <;> rw [henv] at h4 <;>
                simp at h4 <;> subst h4 <;> simp [isVerifyEffect]
            · cases henv : env.validateCert cert co2 <;> rw [henv] at h4 <;>
                simp at h4 <;> subst h4 <;> simp [isVerifyEffect]
        · rcases mem_andThen h2 with h3 | ⟨chain, h3⟩
          · cases henv : env.loadCertChain c.CertChain <;> rw [henv] at h3 <;>
              simp at h3 <;> subst h3 <;> simp [isVerifyEffect]
          · cases henv : env.validateCertWithChain cert chain co <;>
              rw [henv] at h3 <;> simp at h3 <;> subst h3 <;> simp [isVerifyEffect]
      · split at h2
        · cases henv : env.readSCTFile c.SCTRef <;> rw [henv] at h2 <;>
            simp at h2 <;> subst h2 <;> simp [isVerifyEffect]
        · simp at h2
  · simp at h

theorem verifyOne_trace (env : Env) (c : VerifyCommand) (co : CheckOpts)
    (img : String) {e : Effect} (h : e ∈ (verifyOne env c co img).1) :
    e = .verifyLocalImage img ∨ e = .parseReference img ∨
      e = .getAttachedImageRef img c.Attachment ∨ e = .verifyImageSignatures img := by
  unfold verifyOne at h
  split at h
  · cases henv : env.verifyLocalImage img co <;> rw [henv] at h <;> simp at h <;>
      tauto
  · cases henv : env.parseReference img <;> rw [henv] at h
    · simp at h; tauto
    · rename_i ref
      cases henv2 : env.getAttachedImageRef ref c.Attachment
      · simp [henv2] at h; tauto
      · rename_i ref2
        cases henv3 : env.verifyImageSignatures ref2 co <;>
          simp [henv2, henv3] at h <;> tauto

theorem verifyImages_cons (env : Env) (c : VerifyCommand) (co : CheckOpts)
    (img : String) (rest : List String) :
    verifyImages env c co (img :: rest) =
      andThen (verifyOne env c co img) (fun _ => verifyImages env c co rest) := by
  simp only [verifyImages]

theorem verifyImages_trace (env : Env) (c : VerifyCommand) (co : CheckOpts)
    (l : List String) {e : Effect} (h : e ∈ (verifyImages env c co l).1) :
    ∃ img ∈ l, e ∈ (verifyOne env c co img).1 := by
  induction l with
  | nil => simp [verifyImages] at h
  | cons a l ih =>
    rw [verifyImages_cons] at h
    rcases mem_andThen h with h' | ⟨_, h'⟩
    · exact ⟨a, by simp, h'⟩
    · obtain ⟨img, hm, hmem⟩ := ih h'
      exact ⟨img, by simp [hm], hmem⟩

theorem verifyImages_append_ok (env : Env) (c : VerifyCommand) (co : CheckOpts)
    {l1 : List String} (l2 : List String)
    (h : (verifyImages env c co l1).2 = .ok ()) :
    verifyImages env c co (l1 ++ l2) =
      ((verifyImages env c co l1).1 ++ (verifyImages env c co l2).1,
        (verifyImages env c co l2).2) := by
  induction l1 with
  | nil => simp [verifyImages]
  | cons a l ih =>
    rw [verifyImages_cons] at h
    obtain ⟨u, hu, hl⟩ := andThen_ok_inv h
    rw [List.cons_append, verifyImages_cons, andThen_ok hu, ih hl,
      verifyImages_cons, andThen_ok hu]
    simp

theorem verifyImages_cons_error (env : Env) (c : VerifyCommand) (co : CheckOpts)
    {img : String} (rest : List String) {err : VerifyError}
    (h : (verifyOne env c co img).2 = .error err) :
    verifyImages env c co (img :: rest) = ((verifyOne env c co img).1, .error err) := by
  rw [verifyImages_cons, andThen_error h]

theorem exceptOk_iff {ε α : Type} {e : Except ε α} :
    exceptOk e ↔ ∃ a, e = .ok a := by
  cases e <;> simp [exceptOk]

theorem trustPhases_trace (env : Env) (c : VerifyCommand) (co : CheckOpts)
    {e : Effect} (h : e ∈ (trustPhases env c co).1) :
    e ∈ (phaseTlog env c co).1 ∨ (∃ co1, e ∈ (phaseKeyless env c co1).1) ∨
      (∃ co2, e ∈ (phaseCTLog env c co2).1) ∨
      (∃ co3, e ∈
        (phaseKeySwitch env c (defaultHashAlgorithm c.HashAlgorithm) co3).1) := by
  unfold trustPhases at h
  rcases mem_andThen h with h1 | ⟨co1, h1⟩
  · exact .inl h1
  rcases mem_andThen h1 with h2 | ⟨co2, h2⟩
  · exact .inr (.inl ⟨co1, h2⟩)
  rcases mem_andThen h2 with h3 | ⟨co3, h3⟩
  · exact .inr (.inr (.inl ⟨co2, h3⟩))
  rcases mem_andThen h3 with h4 | ⟨cov, h4⟩
  · exact .inr (.inr (.inr ⟨co3, h4⟩))
  · simp at h4

theorem trustSetup_trace (env : Env) (c : VerifyCommand) {e : Effect}
    (h : e ∈ (trustSetup env c).1) :
    e ∈ (resolveIdentities env c).1 ∨ e = .clientOpts ∨
      ∃ co, e ∈ (trustPhases env c co).1 := by
  unfold trustSetup at h
  rcases mem_andThen h with h1 | ⟨ids, h1⟩
  · exact .inl h1
  rcases mem_andThen h1 with h2 | ⟨u, h2⟩
  · cases henv : env.clientOpts <;> rw [henv] at h2 <;> simp at h2 <;>
      exact .inr (.inl h2)
  split at h2
  · simp at h2
  · exact .inr (.inr ⟨_, h2⟩)

theorem DoVerify_trace (env : Env) (c : VerifyCommand) (images : List String)
    {e : Effect} (h : e ∈ (DoVerify env c images).1) :
    e ∈ (trustSetup env c).1 ∨
      ∃ co img, img ∈ images ∧ e ∈ (verifyOne env c co img).1 := by
  unfold DoVerify at h
  split at h
  · simp at h
  · split at h
    · rcases mem_andThen h with h1 | ⟨co, h1⟩
      · exact .inl h1
      · rcases mem_andThen h1 with h2 | ⟨u, h2⟩
        · obtain ⟨img, hm, hmem⟩ := verifyImages_trace _ _ _ _ h2
          exact .inr ⟨co, img, hm, hmem⟩
        · simp at h2
    · simp at h

theorem trustSetup_eq (env : Env) (c : VerifyCommand) {ids : List Identity}
    (h1 : (resolveIdentities env c).2 = .ok ids)
    (h2 : env.clientOpts = .ok ()) (h3 : c.TSACertChainPath = "") :
    trustSetup env c =
      ((resolveIdentities env c).1 ++
        .clientOpts :: (trustPhases env c (mkCheckOpts c ids)).1,
        (trustPhases env c (mkCheckOpts c ids)).2) := by
  unfold trustSetup
  rw [andThen_ok h1, h2]
  simp [andThen, h3]

theorem DoVerify_eq (env : Env) (c : VerifyCommand) {images : List String}
    (himg : images ≠ []) (hatt : c.Attachment = "sbom" ∨ c.Attachment = "") :
    DoVerify env c images =
      andThen (trustSetup env c) (fun co =>
        andThen (verifyImages env c co images) (fun _ => ([], .ok co))) := by
  unfold DoVerify
  rw [if_neg (by simpa using himg), if_pos hatt]

theorem phaseTlog_run (env : Env) (c : VerifyCommand) (co : CheckOpts)
    (h : c.IgnoreTlog = false)
    (hcl : c.RekorURL ≠ "" → env.rekorNewClient c.RekorURL = .ok ()) :
    Effect.getRekorPubs ∈ (phaseTlog env c co).1 ∧
      ∀ msg, env.getRekorPubs = .error msg →
        (phaseTlog env c co).2 = .error (.rekorPubsErr msg) := by
  unfold phaseTlog
  rw [if_pos (by simp [h])]
  by_cases hurl : c.RekorURL ≠ ""
  · rw [if_pos hurl, hcl hurl]
    refine ⟨?_, ?_⟩
    · cases henv : env.getRekorPubs <;> simp [andThen, henv]
    · intro msg hm
      simp [andThen, hm]
  · rw [if_neg hurl]
    refine ⟨?_, ?_⟩
    · cases henv : env.getRekorPubs <;> simp [andThen, henv]
    · intro msg hm
      simp [andThen, hm]

theorem keylessVerification_false {keyRef : String} {sk : Bool}
    (h : keyRef ≠ "" ∨ sk = true) : keylessVerification keyRef sk = false := by
  unfold keylessVerification
  rcases h with h | h <;> simp [h]

theorem trustSetup_no_verify (env : Env) (c : VerifyCommand) {e : Effect}
    (h : e ∈ (trustSetup env c).1) : isVerifyEffect e = false := by
  rcases trustSetup_trace env c h with h | h | ⟨co, h⟩
  · rw [resolveIdentities_trace env c h]; rfl
  · rw [h]; rfl
  · rcases trustPhases_trace env c co h with h | ⟨co1, h⟩ | ⟨co2, h⟩ | ⟨co3, h⟩
    · rcases phaseTlog_trace env c co h with h | h <;> rw [h] <;> rfl
    · rcases phaseKeyless_trace env c co1 h with h | h | h <;> rw [h] <;> rfl
    · rw [phaseCTLog_trace env c co2 h]; rfl
    · exact (phaseKeySwitch_class env c _ co3 h).1

theorem phaseTlog_identities (env : Env) (c : VerifyCommand) {co co' : CheckOpts}
    (h : (phaseTlog env c co).2 = .ok co') : co'.identities = co.identities := by
  unfold phaseTlog at h
  split at h
  · obtain ⟨coA, hA, hB⟩ := andThen_ok_inv h
    have hIdA : coA.identities = co.identities := by
      split at hA
      · cases henv : env.rekorNewClient c.RekorURL <;> rw [henv] at hA <;>
          simp at hA
        rw [← hA]
      · simp at hA
        rw [← hA]
    cases henv : env.getRekorPubs <;> rw [henv] at hB <;> simp at hB
    rw [← hB]
    exact hIdA
  · simp at h
    rw [← h]

theorem phaseKeyless_identities (env : Env) (c : VerifyCommand) {co co' : CheckOpts}
    (h : (phaseKeyless env c co).2 = .ok co') : co'.identities = co.identities := by
  unfold phaseKeyless at h
  split at h
  · split at h
    · cases henv : env.loadCertChain c.CertChain <;> rw [henv] at h
      · simp at h
      · rename_i chain
        rcases hl : chain.getLast? with _ | root <;> simp [hl] at h
        rw [← h]
    · obtain ⟨coA, hA, hB⟩ := andThen_ok_inv h
      have hIdA : coA.identities = co.identities := by
        cases henv : env.fulcioGetRoots <;> rw [henv] at hA <;> simp at hA
        rw [← hA]
      cases henv : env.fulcioGetIntermediates <;> rw [henv] at hB <;> simp at hB
      rw [← hB]
      exact hIdA
  · simp at h
    rw [← h]

theorem phaseCTLog_identities (env : Env) (c : VerifyCommand) {co co' : CheckOpts}
    (h : (phaseCTLog env c co).2 = .ok co') : co'.identities = co.identities := by
  unfold phaseCTLog at h
  split at h
  · cases henv : env.getCTLogPubs <;> rw [henv] at h <;> simp at h
    rw [← h]
  · simp at h
    rw [← h]

theorem phaseKeySwitch_identities (env : Env) (c : VerifyCommand) (ha : Nat)
    {co : CheckOpts} {cov : CheckOpts × Option Verifier}
    (h : (phaseKeySwitch env c ha co).2 = .ok cov) :
    cov.1.identities = co.identities := by
  unfold phaseKeySwitch at h
  cases hks : resolveKeySource c.KeyRef c.Sk c.CertRef <;> rw [hks] at h
  · cases henv : env.publicKeyFromKeyRef c.KeyRef ha <;> rw [henv] at h <;>
      simp at h
    rw [← h]
  · cases henv : env.pivGetKey c.Slot <;> rw [henv] at h
    · simp at h
    · cases henv2 : env.pivVerifier <;> simp [henv2] at h
      rw [← h]
  · obtain ⟨cert, -, h2⟩ := andThen_ok_inv h
    obtain ⟨cov0, hmid, h3⟩ := andThen_ok_inv h2
    have hIdMid : cov0.1.identities = co.identities := by
      split at hmid
      · obtain ⟨co1, hA, hB⟩ := andThen_ok_inv hmid
        have hIdA : co1.identities = co.identities := by
          cases henv : env.fulcioGetRoots <;> rw [henv] at hA <;> simp at hA
          rw [← hA]
        obtain ⟨co2, hC, hD⟩ := andThen_ok_inv hB
        have hIdC : co2.identities = co1.identities := by
          cases henv : env.fulcioGetIntermediates <;> rw [henv] at hC <;>
            simp at hC
          rw [← hC]
        cases henv : env.validateCert cert co2 <;> rw [henv] at hD <;> simp at hD
        rw [← hD]
        simp [hIdC, hIdA]
      · obtain ⟨chain, hA, hB⟩ := andThen_ok_inv hmid
        cases henv : env.validateCertWithChain cert chain co <;> rw [henv] at hB <;>
          simp at hB
        rw [← hB]
    split at h3
    · cases henv : env.readSCTFile c.SCTRef <;> rw [henv] at h3 <;> simp at h3
      rw [← h3]
      exact hIdMid
    · simp at h3
      rw [← h3]
      exact hIdMid
  · simp at h
    rw [← h]

theorem trustPhases_identities (env : Env) (c : VerifyCommand) {co co' : CheckOpts}
    (h : (trustPhases env c co).2 = .ok co') : co'.identities = co.identities := by
  unfold trustPhases at h
  obtain ⟨co1, h1, h⟩ := andThen_ok_inv h
  obtain ⟨co2, h2, h⟩ := andThen_ok_inv h
  obtain ⟨co3, h3, h⟩ := andThen_ok_inv h
  obtain ⟨cov, h4, h⟩ := andThen_ok_inv h
  simp at h
  rw [← h]
  have := phaseKeySwitch_identities env c _ h4
  rw [this, phaseCTLog_identities env c h3, phaseKeyless_identities env c h2,
    phaseTlog_identities env c h1]

/-! ### Concrete environments used to instantiate the theorems -/

/-- An environment in which every collaborator call succeeds. -/
def okEnv : Env :=
  { identities := .ok [1]
    clientOpts := .ok ()
    rekorNewClient := fun _ => .ok ()
    getRekorPubs := .ok 10
    loadCertChain := fun _ => .ok [5, 7]
    fulcioGetRoots := .ok [100]
    fulcioGetIntermediates := .ok [101]
    getCTLogPubs := .ok 11
    publicKeyFromKeyRef := fun _ _ => .ok 42
    pivGetKey := fun _ => .ok ()
    pivVerifier := .ok 43
    loadCert := fun _ => .ok 9
    validateCert := fun _ _ => .ok 44
    validateCertWithChain := fun _ _ _ => .ok 45
    readSCTFile := fun _ => .ok [1, 2]
    parseReference := fun s => .ok s
    getAttachedImageRef := fun r _ => .ok r
    verifyLocalImage := fun _ _ => .ok ()
    verifyImageSignatures := fun _ _ => .ok () }

/-- `okEnv` with a failing Rekor public-key fetch. -/
def envRekFail : Env := { okEnv with getRekorPubs := .error "down" }

/-- `okEnv` whose image verification fails on the image named "bad". -/
def envFail : Env :=
  { okEnv with
    verifyImageSignatures := fun r _ => if r = "bad" then .error "boom" else .ok () }

/-! ### The claims -/

/-- C8: for every invocation with an empty image list, or with an
`Attachment` other than "" or "sbom", `DoVerify` fails with the
usage error `flag.ErrHelp` and an empty collaborator trace: no trust
material is loaded and no artifact is evaluated. -/
theorem C8_input_validation (env : Env) (c : VerifyCommand) (images : List String)
    (h : images = [] ∨ (c.Attachment ≠ "" ∧ c.Attachment ≠ "sbom")) :
    DoVerify env c images = ([], .error .errHelp) := by
  unfold DoVerify
  rcases h with h | ⟨h1, h2⟩
  · rw [if_pos (by simp [h])]
  · by_cases hl : images.length = 0
    · rw [if_pos hl]
    · rw [if_neg hl,
        if_neg (by simp [h1, h2] : ¬(c.Attachment = "sbom" ∨ c.Attachment = ""))]

theorem C8_input_validation_witness :
    ((["x"] : List String) = [] ∨
      (({ Attachment := "bad" } : VerifyCommand).Attachment ≠ "" ∧
        ({ Attachment := "bad" } : VerifyCommand).Attachment ≠ "sbom")) ∧
    DoVerify okEnv { Attachment := "bad" } ["x"] = ([], .error .errHelp) :=
  ⟨.inr ⟨by decide, by decide⟩,
    C8_input_validation okEnv { Attachment := "bad" } ["x"]
      (.inr ⟨by decide, by decide⟩)⟩

/-- C9 as stated is false: a non-empty `TSACertChainPath` does not make
`DoVerify` return the TSA error "regardless of all other options" — with
an unsupported `Attachment`, the input check at lines 83-88 returns
`flag.ErrHelp` first and the TSA check at lines 127-129 is never
reached. -/
theorem C9_tsa_after_input_checks :
    ({ Attachment := "bad", TSACertChainPath := "x" } : VerifyCommand).TSACertChainPath
        ≠ "" ∧
    (DoVerify okEnv { Attachment := "bad", TSACertChainPath := "x" } ["i"]).2
        ≠ .error .tsaNotSupported := by
  constructor
  · decide
  · decide

theorem trustSetup_tsa (env : Env) (c : VerifyCommand) {ids : List Identity}
    (hids : (resolveIdentities env c).2 = .ok ids)
    (hcl : env.clientOpts = .ok ()) (htsa : c.TSACertChainPath ≠ "") :
    trustSetup env c =
      ((resolveIdentities env c).1 ++ [.clientOpts], .error .tsaNotSupported) := by
  unfold trustSetup
  rw [andThen_ok hids, hcl]
  simp [andThen, htsa]

/-- C9 amended: for every invocation that passes the input checks
(non-empty image list, attachment "" or "sbom") and whose
identity-option parsing and registry-client construction succeed, a
non-empty `TSACertChainPath` makes `DoVerify` return the
TSA-not-supported error, and the only collaborator calls made are the
identity resolution and the client-option construction — no key-source
resolution and no artifact verification happens. -/
theorem C9_tsa_rejected_before_key_resolution (env : Env) (c : VerifyCommand)
    (images : List String) (himg : images ≠ [])
    (hatt : c.Attachment = "sbom" ∨ c.Attachment = "")
    (hids : exceptOk (resolveIdentities env c).2)
    (hcl : env.clientOpts = .ok ()) (htsa : c.TSACertChainPath ≠ "") :
    (DoVerify env c images).2 = .error .tsaNotSupported ∧
    ∀ e ∈ (DoVerify env c images).1,
      e = .identitiesResolve ∨ e = .clientOpts := by
  obtain ⟨ids, hid⟩ := exceptOk_iff.mp hids
  have hts := trustSetup_tsa env c hid hcl htsa
  have hts2 : (trustSetup env c).2 = .error .tsaNotSupported := by rw [hts]
  rw [DoVerify_eq env c himg hatt, andThen_error hts2]
  constructor
  · rfl
  · intro e he
    rw [hts] at he
    simp at he
    rcases he with he | he
    · exact .inl (resolveIdentities_trace env c he)
    · exact .inr he

theorem C9_tsa_rejected_witness :
    ((["i"] : List String) ≠ []) ∧
    ({ TSACertChainPath := "x" } : VerifyCommand).TSACertChainPath ≠ "" ∧
    (DoVerify okEnv { TSACertChainPath := "x" } ["i"]).2 =
      .error .tsaNotSupported :=
  ⟨by decide, by decide,
    (C9_tsa_rejected_before_key_resolution okEnv { TSACertChainPath := "x" }
      ["i"] (by decide) (.inr rfl) (by decide) rfl (by decide)).1⟩

/-- C10: the identity predicates are resolved and placed into the check
options only when `KeyRef` is empty.  With a static key supplied, the
identity resolution returns the empty slice without calling the
identity-option parser, the parser is never called anywhere in the run,
and any successfully produced check options carry an empty `Identities`
list — so identity matching via the `Identities` list is not enforced
in static-key mode. -/
theorem C10_identities_only_without_key (env : Env) (c : VerifyCommand)
    (images : List String) (h : c.KeyRef ≠ "") :
    resolveIdentities env c = ([], .ok []) ∧
    Effect.identitiesResolve ∉ (DoVerify env c images).1 ∧
    ∀ t co, DoVerify env c images = (t, .ok co) → co.identities = [] := by
  refine ⟨resolveIdentities_of_keyRef env c h, ?_, ?_⟩
  · intro hmem
    rcases DoVerify_trace env c images hmem with hts | ⟨co, img, hm, hone⟩
    · rcases trustSetup_trace env c hts with h1 | h1 | ⟨co, h1⟩
      · rw [resolveIdentities_of_keyRef env c h] at h1
        simp at h1
      · simp at h1
      · rcases trustPhases_trace env c co h1 with h2 | ⟨co1, h2⟩ | ⟨co2, h2⟩ | ⟨co3, h2⟩
        · rcases phaseTlog_trace env c co h2 with h3 | h3 <;> simp at h3
        · rcases phaseKeyless_trace env c co1 h2 with h3 | h3 | h3 <;> simp at h3
        · have h3 := phaseCTLog_trace env c co2 h2
          simp at h3
        · exact absurd rfl (phaseKeySwitch_class env c _ co3 h2).2.1
    · rcases verifyOne_trace env c co img hone with h3 | h3 | h3 | h3 <;> simp at h3
  · intro t co hdv
    by_cases himg : images.length = 0
    · unfold DoVerify at hdv
      rw [if_pos himg] at hdv
      simp at hdv
    · by_cases hatt : c.Attachment = "sbom" ∨ c.Attachment = ""
      · rw [DoVerify_eq env c (by simpa using himg) hatt] at hdv
        have h2 : (andThen (trustSetup env c) (fun co' =>
            andThen (verifyImages env c co' images) (fun _ => ([], .ok co')))).2 =
            .ok co := by rw [hdv]
        obtain ⟨co', hts, hrest⟩ := andThen_ok_inv h2
        obtain ⟨u, hloop, hfin⟩ := andThen_ok_inv hrest
        simp at hfin
        subst hfin
        unfold trustSetup at hts
        obtain ⟨ids, hid, hts1⟩ := andThen_ok_inv hts
        have hids0 : ids = [] := by
          rw [resolveIdentities_of_keyRef env c h] at hid
          simpa using hid.symm
        subst hids0
        obtain ⟨u2, hcl2, hts2⟩ := andThen_ok_inv hts1
        split at hts2
        · simp at hts2
        · have hpres := trustPhases_identities env c hts2
          rw [hpres]
          rfl
      · unfold DoVerify at hdv
        rw [if_neg himg, if_neg hatt] at hdv
        simp at hdv

theorem C10_identities_only_without_key_witness :
    (({ KeyRef := "k" } : VerifyCommand).KeyRef ≠ "") ∧
    resolveIdentities okEnv { KeyRef := "k" } = ([], .ok []) ∧
    Effect.identitiesResolve ∉ (DoVerify okEnv { KeyRef := "k" } ["img"]).1 :=
  ⟨by decide,
    (C10_identities_only_without_key okEnv { KeyRef := "k" } ["img"] (by decide)).1,
    (C10_identities_only_without_key okEnv { KeyRef := "k" } ["img"] (by decide)).2.1⟩

/-- C6: when `HashAlgorithm` is the zero value it is defaulted to
SHA-256 (and kept unchanged otherwise) at lines 90-93, before any
verifier construction: the defaulted value is never zero, and every
public-key verifier construction recorded in the run carries exactly
the defaulted hash algorithm. -/
theorem C6_hash_defaults_to_sha256 (env : Env) (c : VerifyCommand)
    (images : List String) :
    (c.HashAlgorithm = 0 → defaultHashAlgorithm c.HashAlgorithm = SHA256) ∧
    (c.HashAlgorithm ≠ 0 → defaultHashAlgorithm c.HashAlgorithm = c.HashAlgorithm) ∧
    defaultHashAlgorithm c.HashAlgorithm ≠ 0 ∧
    ∀ e ∈ (DoVerify env c images).1, ∀ k a, e = .publicKeyFromKeyRef k a →
      a = defaultHashAlgorithm c.HashAlgorithm := by
  refine ⟨fun h => by simp [defaultHashAlgorithm, h],
    fun h => by simp [defaultHashAlgorithm, h], ?_, ?_⟩
  · by_cases h : c.HashAlgorithm = 0 <;> simp [defaultHashAlgorithm, h, SHA256]
  · intro e he k a hk
    rcases DoVerify_trace env c images he with hts | ⟨co, img, hm, hone⟩
    · rcases trustSetup_trace env c hts with h1 | h1 | ⟨co, h1⟩
      · rw [resolveIdentities_trace env c h1] at hk
        simp at hk
      · rw [h1] at hk
        simp at hk
      · rcases trustPhases_trace env c co h1 with h2 | ⟨co1, h2⟩ | ⟨co2, h2⟩ | ⟨co3, h2⟩
        · rcases phaseTlog_trace env c co h2 with h3 | h3 <;> rw [h3] at hk <;>
            simp at hk
        · rcases phaseKeyless_trace env c co1 h2 with h3 | h3 | h3 <;>
            rw [h3] at hk <;> simp at hk
        · rw [phaseCTLog_trace env c co2 h2] at hk
          simp at hk
        · exact ((phaseKeySwitch_class env c _ co3 h2).2.2.2.2.2 k a hk).2
    · rcases verifyOne_trace env c co img hone with h3 | h3 | h3 | h3 <;>
        rw [h3] at hk <;> simp at hk

theorem C6_hash_defaults_to_sha256_witness :
    ({ KeyRef := "k" } : VerifyCommand).HashAlgorithm = 0 ∧
    defaultHashAlgorithm ({ KeyRef := "k" } : VerifyCommand).HashAlgorithm = SHA256 ∧
    Effect.publicKeyFromKeyRef "k" SHA256 ∈
      (DoVerify okEnv { KeyRef := "k" } ["img"]).1 :=
  ⟨rfl, (C6_hash_defaults_to_sha256 okEnv { KeyRef := "k" } ["img"]).1 rfl,
    by decide⟩

/-- C1 as stated is false: with a static key (`KeyRef` non-empty) and the
defaults `IgnoreTlog = false`, `IgnoreSCT = false`, `DoVerify` still
performs the Rekor public-key fetch (lines 131-145 run regardless of the
key source) and the CT-log public-key fetch (lines 176-181). -/
theorem C1_static_key_fetches_rekor_pubs :
    ({ KeyRef := "k" } : VerifyCommand).KeyRef ≠ "" ∧
    Effect.getRekorPubs ∈ (DoVerify okEnv { KeyRef := "k" } ["img"]).1 ∧
    Effect.getCTLogPubs ∈ (DoVerify okEnv { KeyRef := "k" } ["img"]).1 := by
  refine ⟨by decide, by decide, by decide⟩

/-- C1 amended: for every invocation that supplies a static public key
(`KeyRef` non-empty) or a hardware token (`Sk` true), `DoVerify` never
invokes root-of-trust resolution — no certificate chain load and no
Fulcio root or intermediate fetch appears in the collaborator trace;
transparency-proof key resolution, however, still happens on that path
unless explicitly disabled: only when `IgnoreTlog` is set is the Rekor
public-key fetch absent, and only when `IgnoreSCT` is set is the CT-log
public-key fetch absent. -/
theorem C1_static_key_skips_root_of_trust (env : Env) (c : VerifyCommand)
    (images : List String) (h : c.KeyRef ≠ "" ∨ c.Sk = true) :
    ∀ e ∈ (DoVerify env c images).1,
      (∀ p, e ≠ .loadCertChain p) ∧ e ≠ .fulcioGetRoots ∧
      e ≠ .fulcioGetIntermediates ∧
      (c.IgnoreTlog = true → e ≠ .getRekorPubs) ∧
      (c.IgnoreSCT = true → e ≠ .getCTLogPubs) := by
  intro e he
  rcases DoVerify_trace env c images he with hts | ⟨co, img, hm, hone⟩
  · rcases trustSetup_trace env c hts with h1 | h1 | ⟨co, h1⟩
    · rw [resolveIdentities_trace env c h1]
      simp
    · rw [h1]
      simp
    · rcases trustPhases_trace env c co h1 with h2 | ⟨co1, h2⟩ | ⟨co2, h2⟩ | ⟨co3, h2⟩
      · rcases phaseTlog_trace env c co h2 with h3 | h3
        · rw [h3]; simp
        · subst h3
          refine ⟨by simp, by simp, by simp, ?_, by simp⟩
          intro hig
          rw [phaseTlog_skip env c co hig] at h2
          simp at h2
      · rw [phaseKeyless_skip env c co1 (keylessVerification_false h)] at h2
        simp at h2
      · have h3 := phaseCTLog_trace env c co2 h2
        subst h3
        refine ⟨by simp, by simp, by simp, by simp, ?_⟩
        intro hig
        rw [phaseCTLog_skip env c co2 hig] at h2
        simp at h2
      · rcases h with hk | hsk
        · rw [phaseKeySwitch_trace_static env c _ co3 hk] at h2
          simp at h2
          rw [h2]
          simp
        · by_cases hk : c.KeyRef = ""
          · rw [phaseKeySwitch_trace_token env c _ co3 hk hsk] at h2
            simp at h2
            rw [h2]
            simp
          · rw [phaseKeySwitch_trace_static env c _ co3 hk] at h2
            simp at h2
            rw [h2]
            simp
  · rcases verifyOne_trace env c co img hone with h3 | h3 | h3 | h3 <;> rw [h3] <;>
      simp

theorem C1_static_key_skips_root_of_trust_witness :
    (({ KeyRef := "k" } : VerifyCommand).KeyRef ≠ "" ∨
      ({ KeyRef := "k" } : VerifyCommand).Sk = true) ∧
    ∀ e ∈ (DoVerify okEnv { KeyRef := "k" } ["img"]).1,
      (∀ p, e ≠ .loadCertChain p) ∧ e ≠ .fulcioGetRoots ∧
      e ≠ .fulcioGetIntermediates ∧
      (({ KeyRef := "k" } : VerifyCommand).IgnoreTlog = true →
        e ≠ .getRekorPubs) ∧
      (({ KeyRef := "k" } : VerifyCommand).IgnoreSCT = true →
        e ≠ .getCTLogPubs) :=
  ⟨.inl (by decide),
    C1_static_key_skips_root_of_trust okEnv { KeyRef := "k" } ["img"]
      (.inl (by decide))⟩

/-- C4: key-source resolution is mutually exclusive first-match-wins in
the priority order static key, hardware token, explicit certificate,
keyless discovery; and on success the switch yields exactly one
verifier in the three explicit branches (the keyless branch leaves the
verifier unset for discovery from the signature's embedded
certificate). -/
theorem C4_key_source_first_match (keyRef certRef : String) (sk : Bool)
    (env : Env) (c : VerifyCommand) (ha : Nat) (co : CheckOpts) :
    (keyRef ≠ "" → resolveKeySource keyRef sk certRef = .staticKey) ∧
    (keyRef = "" → sk = true → resolveKeySource keyRef sk certRef = .hardwareToken) ∧
    (keyRef = "" → sk = false → certRef ≠ "" →
      resolveKeySource keyRef sk certRef = .cert) ∧
    (keyRef = "" → sk = false → certRef = "" →
      resolveKeySource keyRef sk certRef = .keyless) ∧
    ∀ cov, (phaseKeySwitch env c ha co).2 = .ok cov →
      (resolveKeySource c.KeyRef c.Sk c.CertRef = .keyless → cov.2 = none) ∧
      (resolveKeySource c.KeyRef c.Sk c.CertRef ≠ .keyless → ∃ v, cov.2 = some v) :=
  ⟨resolveKeySource_static keyRef sk certRef,
    resolveKeySource_token keyRef sk certRef,
    resolveKeySource_cert keyRef sk certRef,
    resolveKeySource_keyless keyRef sk certRef,
    fun cov hc => phaseKeySwitch_verifier env c ha co cov hc⟩

theorem C4_key_source_first_match_witness :
    ("k" : String) ≠ "" ∧ resolveKeySource "k" true "c" = .staticKey ∧
    ∃ cov, (phaseKeySwitch okEnv { KeyRef := "k" } 5 {}).2 = .ok cov ∧
      ∃ v, cov.2 = some v := by
  refine ⟨by decide,
    (C4_key_source_first_match "k" "c" true okEnv { KeyRef := "k" } 5 {}).1
      (by decide), ?_⟩
  refine ⟨({}, some 42), by decide, ?_⟩
  exact ((C4_key_source_first_match "k" "c" true okEnv { KeyRef := "k" } 5
    {}).2.2.2.2 ({}, some 42) (by decide)).2 (by decide)

/-- C2: during keyless verification with a supplied `CertChain`, the
decoded chain is split so that its last certificate is placed alone in
the root pool and all preceding certificates form the intermediate
pool (left nil for a single-certificate chain): `dropLast ++ [root]`
reassembles the chain, and the resulting check options carry exactly
those pools. -/
theorem C2_chain_last_is_root (env : Env) (c : VerifyCommand) (co : CheckOpts)
    (chain : List Cert) (root : Cert)
    (hkl : keylessVerification c.KeyRef c.Sk = true) (hcc : c.CertChain ≠ "")
    (hload : env.loadCertChain c.CertChain = .ok chain)
    (hlast : chain.getLast? = some root) :
    chain.dropLast ++ [root] = chain ∧
    ((phaseKeyless env c co).2 =
      .ok { co with
            rootCerts := some [root],
            intermediateCerts :=
              if 1 < chain.length then some chain.dropLast else none }) ∧
    (chain.length = 1 →
      (phaseKeyless env c co).2 =
        .ok { co with rootCerts := some [root], intermediateCerts := none }) := by
  have hmain : (phaseKeyless env c co).2 =
      .ok { co with
            rootCerts := some [root],
            intermediateCerts :=
              if 1 < chain.length then some chain.dropLast else none } := by
    simp [phaseKeyless, hkl, hcc, hload, hlast]
  refine ⟨List.dropLast_append_getLast? root (by simp [hlast]), hmain, ?_⟩
  intro h1
  rw [hmain]
  simp [h1]

/-- `okEnv` whose chain file decodes to a single certificate. -/
def envSingle : Env := { okEnv with loadCertChain := fun _ => .ok [9] }

theorem C2_chain_last_is_root_witness :
    keylessVerification ({ CertChain := "ch" } : VerifyCommand).KeyRef
        ({ CertChain := "ch" } : VerifyCommand).Sk = true ∧
    okEnv.loadCertChain "ch" = .ok [5, 7] ∧
    (phaseKeyless okEnv { CertChain := "ch" } {}).2 =
      .ok { rootCerts := some [7], intermediateCerts := some [5] } ∧
    (phaseKeyless envSingle { CertChain := "ch" } {}).2 =
      .ok { rootCerts := some [9], intermediateCerts := none } := by
  refine ⟨by decide, by decide, ?_, ?_⟩
  · have h := C2_chain_last_is_root okEnv { CertChain := "ch" } {} [5, 7] 7
      (by decide) (by decide) rfl rfl
    rw [h.2.1]
    decide
  · have h := C2_chain_last_is_root envSingle { CertChain := "ch" } {} [9] 9
      (by decide) (by decide) rfl rfl
    rw [h.2.2 rfl]

/-- C3: the certificate loader first attempts base64 decoding and, when
that fails, silently falls back to parsing the raw bytes (a failed
decode is never an error by itself); the load fails exactly when the
effective bytes (decoded if decoding succeeded, raw otherwise) yield an
unmarshalling error or an empty certificate list. -/
theorem C3_base64_fallback (b64decode : Bytes → Option Bytes)
    (unmarshal : Bytes → Except String (List Cert)) (pems : Bytes) :
    (b64decode pems = none → ∀ cert certs, unmarshal pems = .ok (cert :: certs) →
      loadCertFromPEM b64decode unmarshal pems = .ok cert) ∧
    ((∃ e, loadCertFromPEM b64decode unmarshal pems = .error e) ↔
      ((∃ e, unmarshal ((b64decode pems).getD pems) = .error e) ∨
        unmarshal ((b64decode pems).getD pems) = .ok [])) := by
  constructor
  · intro hnone cert certs hum
    simp [loadCertFromPEM, hnone, hum]
  · cases hb : b64decode pems with
    | none =>
      cases hum : unmarshal pems with
      | error e => simp [loadCertFromPEM, hb, hum]
      | ok certs =>
        cases certs with
        | nil => simp [loadCertFromPEM, hb, hum]
        | cons c cs => simp [loadCertFromPEM, hb, hum]
    | some d =>
      cases hum : unmarshal d with
      | error e => simp [loadCertFromPEM, hb, hum]
      | ok certs =>
        cases certs with
        | nil => simp [loadCertFromPEM, hb, hum]
        | cons c cs => simp [loadCertFromPEM, hb, hum]

/-- A base64 decoder that rejects every input (as on non-base64 bytes). -/
def b64None : Bytes → Option Bytes := fun _ => none

/-- A PEM unmarshaller succeeding with two certificates on `[1]` and
yielding an empty list otherwise. -/
def unmOne : Bytes → Except String (List Cert) := fun b =>
  if b = [1] then .ok [5, 6] else .ok []

theorem C3_base64_fallback_witness :
    b64None [1] = none ∧ unmOne [1] = .ok (5 :: [6]) ∧
    loadCertFromPEM b64None unmOne [1] = .ok 5 :=
  ⟨rfl, rfl, (C3_base64_fallback b64None unmOne [1]).1 rfl 5 [6] rfl⟩

/-- C7: the image loop is fail-fast — once the trust material is set up,
if every image of a prefix verifies and the next image fails, `DoVerify`
returns that image's error and its collaborator trace stops at that
image: nothing is recorded (or attempted) for the remaining images,
whatever they are. -/
theorem C7_fail_fast (env : Env) (c : VerifyCommand) {co : CheckOpts}
    (pre : List String) (img : String) (rest : List String) {err : VerifyError}
    (hatt : c.Attachment = "sbom" ∨ c.Attachment = "")
    (hsetup : (trustSetup env c).2 = .ok co)
    (hpre : (verifyImages env c co pre).2 = .ok ())
    (hfail : (verifyOne env c co img).2 = .error err) :
    DoVerify env c (pre ++ img :: rest) =
      ((trustSetup env c).1 ++ (verifyImages env c co pre).1 ++
        (verifyOne env c co img).1, .error err) := by
  have hne : pre ++ img :: rest ≠ [] := by simp
  have h1 : verifyImages env c co (pre ++ img :: rest) =
      ((verifyImages env c co pre).1 ++ (verifyOne env c co img).1, .error err) := by
    rw [verifyImages_append_ok env c co (img :: rest) hpre,
      verifyImages_cons_error env c co rest hfail]
  have h2 : (verifyImages env c co (pre ++ img :: rest)).2 = .error err := by
    rw [h1]
  rw [DoVerify_eq env c hne hatt, andThen_ok hsetup, andThen_error h2, h1]
  simp

/-- The check options produced by `trustSetup` in `envFail` on the
all-defaults command. -/
def coFail : CheckOpts :=
  { identities := [1], rekorPubKeys := some 10, rootCerts := some [100],
    intermediateCerts := some [101], ctLogPubKeys := some 11 }

theorem C7_fail_fast_witness :
    (trustSetup envFail {}).2 = .ok coFail ∧
    (verifyImages envFail {} coFail ["good"]).2 = .ok () ∧
    (verifyOne envFail {} coFail "bad").2 = .error (.verifyErr "bad" "boom") ∧
    DoVerify envFail {} (["good"] ++ "bad" :: ["later"]) =
      ((trustSetup envFail {}).1 ++ (verifyImages envFail {} coFail ["good"]).1 ++
        (verifyOne envFail {} coFail "bad").1, .error (.verifyErr "bad" "boom")) :=
  ⟨by decide, by decide, by decide,
    C7_fail_fast envFail {} ["good"] "bad" ["later"] (.inr rfl) (by decide)
      (by decide) (by decide)⟩

/-- C5: whatever the `RekorURL` override and the `Offline` flag (both
arbitrary here), once execution reaches the trust-material stage,
`DoVerify` fetches the Rekor public keys unless `IgnoreTlog` is set and
a failing fetch is fatal (the run errors and no artifact verification
happens); symmetrically for the CT-log public keys and `IgnoreSCT`,
once the phases before that fetch succeed. -/
theorem C5_transparency_keys_always_fetched (env : Env) (c : VerifyCommand)
    (images : List String) (himg : images ≠ [])
    (hatt : c.Attachment = "sbom" ∨ c.Attachment = "")
    (hids : exceptOk (resolveIdentities env c).2)
    (hcl : env.clientOpts = .ok ()) (htsa : c.TSACertChainPath = "")
    (hrk : c.RekorURL ≠ "" → env.rekorNewClient c.RekorURL = .ok ()) :
    (c.IgnoreTlog = false → Effect.getRekorPubs ∈ (DoVerify env c images).1) ∧
    (c.IgnoreTlog = false → ∀ msg, env.getRekorPubs = .error msg →
      (DoVerify env c images).2 = .error (.rekorPubsErr msg) ∧
      ∀ e ∈ (DoVerify env c images).1, isVerifyEffect e = false) ∧
    (c.IgnoreSCT = false → (∀ co, exceptOk (phaseTlog env c co).2) →
      (∀ co, exceptOk (phaseKeyless env c co).2) →
      Effect.getCTLogPubs ∈ (DoVerify env c images).1) ∧
    (c.IgnoreSCT = false → (∀ co, exceptOk (phaseTlog env c co).2) →
      (∀ co, exceptOk (phaseKeyless env c co).2) →
      ∀ msg, env.getCTLogPubs = .error msg →
        (DoVerify env c images).2 = .error (.ctLogPubsErr msg) ∧
        ∀ e ∈ (DoVerify env c images).1, isVerifyEffect e = false) := by
  obtain ⟨ids, hid⟩ := exceptOk_iff.mp hids
  refine ⟨?_, ?_, ?_, ?_⟩
  · intro hig
    have hmem : Effect.getRekorPubs ∈ (trustSetup env c).1 := by
      rw [trustSetup_eq env c hid hcl htsa]
      refine List.mem_append.mpr (.inr ?_)
      refine List.mem_cons.mpr (.inr ?_)
      unfold trustPhases
      exact mem_andThen_left ((phaseTlog_run env c _ hig hrk).1)
    rw [DoVerify_eq env c himg hatt]
    exact mem_andThen_left hmem
  · intro hig msg hm
    have hts2 : (trustSetup env c).2 = .error (.rekorPubsErr msg) := by
      rw [trustSetup_eq env c hid hcl htsa]
      show (trustPhases env c (mkCheckOpts c ids)).2 = _
      unfold trustPhases
      rw [andThen_error ((phaseTlog_run env c _ hig hrk).2 msg hm)]
    constructor
    · rw [DoVerify_eq env c himg hatt, andThen_error hts2]
    · intro e he
      rw [DoVerify_eq env c himg hatt, andThen_error hts2] at he
      exact trustSetup_no_verify env c he
  · intro hsct htl hkl
    have hct : ∀ co2 : CheckOpts,
        Effect.getCTLogPubs ∈ (phaseCTLog env c co2).1 := by
      intro co2
      unfold phaseCTLog
      rw [if_pos (by simp [hsct])]
      cases henv : env.getCTLogPubs <;> simp
    have hmem : Effect.getCTLogPubs ∈ (trustPhases env c (mkCheckOpts c ids)).1 := by
      unfold trustPhases
      obtain ⟨co1, h1⟩ := exceptOk_iff.mp (htl (mkCheckOpts c ids))
      rw [andThen_ok h1]
      refine List.mem_append.mpr (.inr ?_)
      obtain ⟨co2, h2⟩ := exceptOk_iff.mp (hkl co1)
      rw [andThen_ok h2]
      refine List.mem_append.mpr (.inr ?_)
      exact mem_andThen_left (hct co2)
    have hmem2 : Effect.getCTLogPubs ∈ (trustSetup env c).1 := by
      rw [trustSetup_eq env c hid hcl htsa]
      exact List.mem_append.mpr (.inr (List.mem_cons.mpr (.inr hmem)))
    rw [DoVerify_eq env c himg hatt]
    exact mem_andThen_left hmem2
  · intro hsct htl hkl msg hm
    have hcterr : ∀ co2 : CheckOpts,
        (phaseCTLog env c co2).2 = .error (.ctLogPubsErr msg) := by
      intro co2
      unfold phaseCTLog
      rw [if_pos (by simp [hsct]), hm]
    have htp : (trustPhases env c (mkCheckOpts c ids)).2 =
        .error (.ctLogPubsErr msg) := by
      unfold trustPhases
      obtain ⟨co1, h1⟩ := exceptOk_iff.mp (htl (mkCheckOpts c ids))
      rw [andThen_ok h1]
      obtain ⟨co2, h2⟩ := exceptOk_iff.mp (hkl co1)
      rw [andThen_ok h2]
      rw [andThen_error (hcterr co2)]
    have hts2 : (trustSetup env c).2 = .error (.ctLogPubsErr msg) := by
      rw [trustSetup_eq env c hid hcl htsa]
      exact htp
    constructor
    · rw [DoVerify_eq env c himg hatt, andThen_error hts2]
    · intro e he
      rw [DoVerify_eq env c himg hatt, andThen_error hts2] at he
      exact trustSetup_no_verify env c he

theorem C5_transparency_keys_always_fetched_witness :
    ((["img"] : List String) ≠ []) ∧
    ({} : VerifyCommand).IgnoreTlog = false ∧
    envRekFail.getRekorPubs = .error "down" ∧
    Effect.getRekorPubs ∈ (DoVerify envRekFail {} ["img"]).1 ∧
    (DoVerify envRekFail {} ["img"]).2 = .error (.rekorPubsErr "down") := by
  refine ⟨by decide, rfl, rfl, ?_, ?_⟩
  · exact (C5_transparency_keys_always_fetched envRekFail {} ["img"] (by decide)
      (.inr rfl) (by decide) rfl rfl (fun h => absurd rfl h)).1 rfl
  · exact ((C5_transparency_keys_always_fetched envRekFail {} ["img"] (by decide)
      (.inr rfl) (by decide) rfl rfl (fun h => absurd rfl h)).2.1 rfl "down" rfl).1
